import Mathlib

/-!
# LEDBrick configuration and codegen components: a shallow embedding

This file embeds, in Lean 4, the Python configuration-validation layer of the
LEDBrick firmware (the `ledbrick_scheduler` and `ledbrick_temperature_control`
ESPHome components) and the web-asset generator script
(`generate_web_content.py`), together with the thermal-control runtime the
configuration layer drives, and proves properties of them.

Numeric values that the Python code handles as floats are modelled as
rationals (`ℚ`); validation is pure order comparison, so no floating-point
rounding behaviour is involved in any property proved here.
-/

namespace LedBrick

/-! ## Models of the ESPHome `config_validation` primitives

The components' schemas are built from the ESPHome library's validators
(`cv.int_range`, `cv.float_range`, `cv.percentage`, `cv.positive_float`,
`cv.Length`, `cv.update_interval`). The library itself is outside the
repository, so each validator is modelled here from its name and documented
meaning; the component schemas below are translated line by line from the
repository's `__init__.py` files on top of these primitives. Percentages are
modelled in percent units, so a full-scale value is `100`. -/

/-- Model of `cv.int_range(min=lo, max=hi)`: accept an integer in `[lo, hi]`. -/
def int_range (lo hi v : Int) : Option Int :=
  if lo ≤ v ∧ v ≤ hi then some v else none

/-- Model of `cv.float_range(min=lo, max=hi)`: accept a value in `[lo, hi]`. -/
def float_range (lo hi : ℚ) (v : ℚ) : Option ℚ :=
  if lo ≤ v ∧ v ≤ hi then some v else none

/-- Model of `cv.percentage`: accept a percentage value in `[0, 100]`
(percent units). -/
def percentage (v : ℚ) : Option ℚ :=
  if 0 ≤ v ∧ v ≤ 100 then some v else none

/-- Model of `cv.positive_float`: accept a positive value. -/
def positive_float (v : ℚ) : Option ℚ :=
  if 0 < v then some v else none

/-- Model of `cv.Length(min=lo, max=hi)`: the list's length lies in
`[lo, hi]`. -/
def length_range (lo hi : Nat) (xs : List ℚ) : Bool :=
  decide (lo ≤ xs.length ∧ xs.length ≤ hi)

/-- Model of the duration parser behind `cv.update_interval` /
`cv.positive_time_period_milliseconds` for the whole-second strings the
components use (`"30s"`, `"1s"`, `"5s"`): a digit string followed by `s`,
yielding milliseconds. -/
def parse_duration_s (s : String) : Option Nat :=
  match s.data.getLast? with
  | some 's' =>
      let digits := s.data.dropLast
      if digits ≠ [] ∧ digits.all Char.isDigit then
        some (1000 * digits.foldl (fun acc c => 10 * acc + (c.toNat - 48)) 0)
      else none
  | _ => none

/-! ## Scheduler component configuration (`ledbrick_scheduler/__init__.py`)

`CONFIG_SCHEMA` of the scheduler component: `channels` is optional with
default `8` validated by `cv.int_range(min=1, max=16)`; `update_interval` is
optional with default `DEFAULT_UPDATE_INTERVAL = "30s"`; `timezone` is an
optional string with default `"UTC"`. A raw configuration holds `none` for
every omitted key; validation resolves defaults and checks ranges, exactly as
the schema does. -/

/-- The source constant `DEFAULT_UPDATE_INTERVAL = "30s"`. -/
def DEFAULT_UPDATE_INTERVAL : String := "30s"

/-- The user-supplied scheduler configuration before validation; `none` marks
an omitted optional key. -/
structure SchedulerRawConfig where
  channels : Option Int
  update_interval : Option String
  timezone : Option String

/-- The scheduler configuration after validation and default resolution. -/
structure SchedulerConfig where
  channels : Int
  update_interval_ms : Nat
  timezone : String
deriving DecidableEq

/-- A raw scheduler configuration with every optional key omitted. -/
def schedulerRawEmpty : SchedulerRawConfig :=
  ⟨none, none, none⟩

/-- The scheduler component's `CONFIG_SCHEMA`: defaults are substituted for
omitted keys and then each value runs through its validator, as the schema's
`cv.Optional(key, default=...)` entries do. -/
def scheduler_config_validate (raw : SchedulerRawConfig) : Option SchedulerConfig := do
  let ch ← int_range 1 16 (raw.channels.getD 8)
  let ui ← parse_duration_s (raw.update_interval.getD DEFAULT_UPDATE_INTERVAL)
  let tz := raw.timezone.getD "UTC"
  some ⟨ch, ui, tz⟩

/-! ## The `set_schedule_point` action schema (`SET_SCHEDULE_POINT_SCHEMA`)

The runtime action's inputs: `timepoint` through `cv.int_range(min=0,
max=1439)`, `pwm_values` through `cv.ensure_list(cv.percentage)` plus
`cv.Length(min=1, max=16)`, and `current_values` through
`cv.ensure_list(cv.float_range(min=0.0, max=5.0))` plus
`cv.Length(min=1, max=16)`. -/

/-- An input to the `ledbrick_scheduler.set_schedule_point` action. -/
structure SetSchedulePointInput where
  timepoint : Int
  pwm_values : List ℚ
  current_values : List ℚ

/-- `SET_SCHEDULE_POINT_SCHEMA`: whether the action input passes validation.
Each list is validated elementwise and its own length is checked against
`[1, 16]`; the schema relates neither list's length to the other list nor to
the configured channel count. -/
def set_schedule_point_validate (x : SetSchedulePointInput) : Bool :=
  (int_range 0 1439 x.timepoint).isSome
    && (x.pwm_values.all fun v => (percentage v).isSome)
    && length_range 1 16 x.pwm_values
    && (x.current_values.all fun v => (float_range 0 5 v).isSome)
    && length_range 1 16 x.current_values

/-- The acceptance condition claimed by the specification for
`set_schedule_point` with a configured channel count `n`: equal list lengths,
both equal to `n`, on top of the per-value ranges. Stated from the spec's
words, for comparison with `set_schedule_point_validate`. -/
def set_schedule_point_spec_accepts (n : Nat) (x : SetSchedulePointInput) : Prop :=
  0 ≤ x.timepoint ∧ x.timepoint ≤ 1439 ∧
    x.pwm_values.length = n ∧ x.current_values.length = n ∧
    (∀ v ∈ x.pwm_values, 0 ≤ v ∧ v ≤ 100) ∧
    (∀ v ∈ x.current_values, 0 ≤ v ∧ v ≤ 5)

instance (n : Nat) (x : SetSchedulePointInput) :
    Decidable (set_schedule_point_spec_accepts n x) := by
  unfold set_schedule_point_spec_accepts
  infer_instance

/-! ## Temperature-control component configuration
(`ledbrick_temperature_control/__init__.py`)

`CONFIG_SCHEMA` of the temperature-control component restricted to its
numeric control parameters: every key is optional with a default, and each
value runs through its validator. The hardware/sensor reference entries take
no part in any claim and carry no numeric validation. -/

/-- The user-supplied temperature-control configuration before validation;
`none` marks an omitted optional key. Durations are held in milliseconds, as
`cv.positive_time_period_milliseconds` resolves them. -/
structure ThermalRawConfig where
  target_temperature : Option ℚ
  kp : Option ℚ
  ki : Option ℚ
  kd : Option ℚ
  min_fan_pwm : Option ℚ
  max_fan_pwm : Option ℚ
  emergency_temperature : Option ℚ
  recovery_temperature : Option ℚ
  emergency_delay_ms : Option Nat

/-- The temperature-control configuration after validation and default
resolution. -/
structure ThermalConfig where
  target_temperature : ℚ
  kp : ℚ
  ki : ℚ
  kd : ℚ
  min_fan_pwm : ℚ
  max_fan_pwm : ℚ
  emergency_temperature : ℚ
  recovery_temperature : ℚ
  emergency_delay_ms : Nat
deriving DecidableEq

/-- A raw temperature-control configuration with every optional key
omitted. -/
def thermalRawEmpty : ThermalRawConfig :=
  ⟨none, none, none, none, none, none, none, none, none⟩

/-- The temperature-control component's `CONFIG_SCHEMA` on its numeric
parameters: `target_temperature` defaults to `45.0` in `[10, 80]`; `kp`, `ki`,
`kd` default to `2.0`, `0.1`, `0.5` through `cv.positive_float`;
`min_fan_pwm` and `max_fan_pwm` default to `0` and `100` percent through
`cv.percentage`; `emergency_temperature` and `recovery_temperature` default to
`60.0` and `55.0`, each in `[30, 100]`; `emergency_delay` defaults to `"5s"`
(5000 ms). The schema applies each validator to its own key only: no entry
compares `recovery_temperature` with `emergency_temperature`, and `to_code`
passes both to `set_emergency_temperatures` unchecked. -/
def thermal_config_validate (raw : ThermalRawConfig) : Option ThermalConfig := do
  let tt ← float_range 10 80 (raw.target_temperature.getD 45)
  let kp ← positive_float (raw.kp.getD 2)
  let ki ← positive_float (raw.ki.getD (1/10))
  let kd ← positive_float (raw.kd.getD (1/2))
  let minf ← percentage (raw.min_fan_pwm.getD 0)
  let maxf ← percentage (raw.max_fan_pwm.getD 100)
  let et ← float_range 30 100 (raw.emergency_temperature.getD 60)
  let rt ← float_range 30 100 (raw.recovery_temperature.getD 55)
  let ed := raw.emergency_delay_ms.getD 5000
  some ⟨tt, kp, ki, kd, minf, maxf, et, rt, ed⟩

/-! ## The thermal-control runtime

Modelled from the spec: the C++ `LEDBrickTemperatureControl` runtime that the
configuration layer instantiates (PID controller, temperature aggregation and
the Normal/Emergency/Recovering state machine) is not among the provided
source files; its behaviour is taken from the specification's component
design (PID with anti-windup and output clamping; max-aggregation with
all-sensors-fault forcing Emergency; immediate entry into Emergency at
`emergency_temperature`; delay-qualified exit at `recovery_temperature`;
while in Emergency the fan is forced to `max_fan_pwm` and the scheduler's
`enabled` flag is forced to `false`, re-asserted every tick ahead of any
user `set_enabled` action). Timestamps are milliseconds as naturals. -/

/-- Clamp `v` into `[lo, hi]`. -/
def clamp (lo hi v : ℚ) : ℚ :=
  max lo (min hi v)

/-- Modelled from the spec: the PID controller's mutable state. -/
structure PIDState where
  integral : ℚ
  previous_error : ℚ
  previous_output : ℚ

/-- Modelled from the spec: one discrete PID update.
`output = kp*error + ki*integral + kd*derivative`; the integral accumulates
`error*dt` clamped to the output range scaled by `1/ki` when `ki > 0`
(anti-windup); the derivative is `(error - previous_error)/dt`; `dt = 0` is a
defensive no-op returning the previous output; the output is clamped to
`[min_fan_pwm, max_fan_pwm]`. -/
def pid_update (cfg : ThermalConfig) (s : PIDState) (error dt : ℚ) : ℚ × PIDState :=
  if dt = 0 then (s.previous_output, s)
  else
    let imax := if 0 < cfg.ki then (cfg.max_fan_pwm - cfg.min_fan_pwm) / cfg.ki else 0
    let integral := clamp (-imax) imax (s.integral + error * dt)
    let derivative := (error - s.previous_error) / dt
    let out := clamp cfg.min_fan_pwm cfg.max_fan_pwm
      (cfg.kp * error + cfg.ki * integral + cfg.kd * derivative)
    (out, { integral := integral, previous_error := error, previous_output := out })

/-- Modelled from the spec: the thermal lifecycle state. `emergency since`
records the entry timestamp used by the delay-qualified exit. -/
inductive ThermalMode where
  | normal
  | emergency (since : Nat)
  | recovering
deriving DecidableEq

/-- Whether a thermal mode is the Emergency state. -/
def ThermalMode.isEmergency : ThermalMode → Bool
  | .emergency _ => true
  | _ => false

/-- Modelled from the spec: aggregate the configured temperature sensors'
readings by taking the maximum valid reading; a faulted sensor reads `none`
and is excluded; when every sensor faults the aggregate is undefined. -/
def aggregate_temperature (readings : List (Option ℚ)) : Option ℚ :=
  (readings.filterMap id).max?

/-- Modelled from the spec: one evaluation of the thermal state machine's
transition policy. Normal enters Emergency immediately when the aggregate
reaches `emergency_temperature`, or when the aggregate is undefined
(fail-safe); Emergency exits to Recovering only when the aggregate has
dropped to `recovery_temperature` and the state has been held at least
`emergency_delay`; Recovering resolves to Normal. -/
def thermal_transition (cfg : ThermalConfig) (now : Nat) (temp : Option ℚ) :
    ThermalMode → ThermalMode
  | .normal =>
      match temp with
      | none => .emergency now
      | some t => if cfg.emergency_temperature ≤ t then .emergency now else .normal
  | .emergency since =>
      match temp with
      | none => .emergency since
      | some t =>
          if t ≤ cfg.recovery_temperature ∧ since + cfg.emergency_delay_ms ≤ now then
            .recovering
          else .emergency since
  | .recovering => .normal

/-- Modelled from the spec: the full control-loop state observed between
ticks. -/
structure ControlState where
  mode : ThermalMode
  pid : PIDState
  fan_output : ℚ
  scheduler_enabled : Bool

/-- Modelled from the spec: one control tick of the thermal runtime. A
pending user `set_enabled` action is applied synchronously ahead of the tick;
the state machine is then evaluated, and while the resulting state is
Emergency the outputs are overridden — fan forced to `max_fan_pwm`, the
scheduler's `enabled` flag forced to `false` — re-asserting the override
every tick over whatever the user action wrote. Outside Emergency the PID
drives the fan and the user's enable choice stands. -/
def control_tick (cfg : ThermalConfig) (now : Nat) (readings : List (Option ℚ))
    (dt : ℚ) (set_enabled_action : Option Bool) (s : ControlState) : ControlState :=
  let enabled := set_enabled_action.getD s.scheduler_enabled
  let temp := aggregate_temperature readings
  let mode := thermal_transition cfg now temp s.mode
  if mode.isEmergency then
    { mode := mode, pid := s.pid, fan_output := cfg.max_fan_pwm,
      scheduler_enabled := false }
  else
    let error := temp.getD cfg.target_temperature - cfg.target_temperature
    let r := pid_update cfg s.pid error dt
    { mode := mode, pid := r.2, fan_output := r.1, scheduler_enabled := enabled }

/-! ## The web-asset generator (`generate_web_content.py`)

The generator reads each web UI text file, compresses it with `gzip.compress`
over its UTF-8 encoding (`compress_content`), and renders the compressed
bytes as a C array initializer (`bytes_to_c_array`). Bytes are `Fin 256`;
strings are handled as character lists. -/

/-- A byte: a natural below 256. -/
abbrev Byte := Fin 256

/-- The byte holding the low 8 bits of `n`. -/
def loByte (n : Nat) : Byte :=
  ⟨n % 256, Nat.mod_lt _ (by omega)⟩

/-- The lowercase hexadecimal digit character of a value below 16: the
digits `format` uses for `{:02x}`. -/
def hexDigitChar (n : Nat) : Char :=
  n.digitChar

/-- The text `f'0x{byte:02x}'` produces for a byte: `0x` followed by exactly
two lowercase hexadecimal digits (a byte never needs more than two). -/
def hexLiteral (b : Byte) : List Char :=
  ['0', 'x', hexDigitChar (b.val / 16), hexDigitChar (b.val % 16)]

/-- The separator text the generator's loop appends ahead of element `i`:
nothing before the first element, `', '` otherwise, with an additional
`'\n    '` ahead of every sixteenth element. -/
def sepBefore (i : Nat) : List Char :=
  if i = 0 then []
  else if i % 16 = 0 then [',', ' ', '\n', ' ', ' ', ' ', ' ']
  else [',', ' ']

/-- The `''.join(hex_bytes)` body built by the generator's loop, starting
from element index `i`. -/
def hex_bytes_from (i : Nat) : List Byte → List Char
  | [] => []
  | b :: rest => sepBefore i ++ hexLiteral b ++ hex_bytes_from (i + 1) rest

/-- `bytes_to_c_array` from the generator script, as a character list:
`'{\n    ' + ''.join(hex_bytes) + '\n}'`. -/
def bytes_to_c_array (data : List Byte) : List Char :=
  ['{', '\n', ' ', ' ', ' ', ' '] ++ hex_bytes_from 0 data ++ ['\n', '}']

/-- The characters that can appear around the hex literals in a generated
array initializer: separators, layout whitespace and the braces. -/
def isSepChar (c : Char) : Bool :=
  c = ',' || c = ' ' || c = '\n' || c = '{' || c = '}'

/-- The maximal runs of non-separator characters of a character list, in
order: applied to a generated initializer this recovers exactly its byte
literals. -/
def splitTokens : List Char → List (List Char)
  | [] => []
  | c :: rest =>
      if isSepChar c then splitTokens rest
      else
        (c :: rest.takeWhile (fun d => !isSepChar d)) ::
          splitTokens (rest.dropWhile (fun d => !isSepChar d))
termination_by cs => cs.length
decreasing_by
  · simp only [List.length_cons]
    omega
  · have h : (rest.dropWhile fun d => !isSepChar d) <:+ rest := List.dropWhile_suffix _
    have h2 := h.length_le
    simp only [List.length_cons]
    omega

/-! ### A gzip model (RFC 1952 over RFC 1951 stored blocks)

Modelled from the spec of the external `gzip` library the generator calls:
`gzipCompress` emits a gzip member — the 10-byte header, the payload as
DEFLATE stored (uncompressed) blocks of at most 65535 bytes each, then the
CRC-32 of the payload and the payload length modulo `2^32`, both
little-endian — and `gzipDecompress` parses such a member back, checking the
header, the block structure and both trailer fields. -/

/-- The four little-endian bytes of `n`'s low 32 bits. -/
def le32Bytes (n : Nat) : List Byte :=
  [loByte n, loByte (n / 256), loByte (n / 2 ^ 16), loByte (n / 2 ^ 24)]

/-- The value of four little-endian bytes. -/
def le32Value (a b c d : Byte) : Nat :=
  a.val + 256 * b.val + 2 ^ 16 * c.val + 2 ^ 24 * d.val

/-- One bit step of the reflected CRC-32 with polynomial `0xEDB88320`. -/
def crc32_step (c : Nat) : Nat :=
  if c % 2 = 1 then (c / 2) ^^^ 0xEDB88320 else c / 2

/-- Fold one byte into a CRC-32 accumulator: xor it in, then run eight bit
steps. -/
def crc32_byte (c : Nat) (b : Byte) : Nat :=
  crc32_step^[8] (c ^^^ b.val)

/-- The CRC-32 checksum of a byte sequence. -/
def crc32 (data : List Byte) : Nat :=
  (data.foldl crc32_byte 0xFFFFFFFF) ^^^ 0xFFFFFFFF

/-- Serialize a payload as DEFLATE stored blocks: chunks of at most 65535
bytes, each preceded by a final-block flag byte, the chunk length `LEN`
little-endian, and its one's complement `NLEN`. -/
def storedBlocks (data : List Byte) : List Byte :=
  if h : data.length ≤ 65535 then
    loByte 1 :: loByte data.length :: loByte (data.length / 256) ::
      loByte (255 - data.length % 256) :: loByte (255 - data.length / 256 % 256) ::
      data
  else
    (loByte 0 :: loByte 255 :: loByte 255 :: loByte 0 :: loByte 0 ::
        data.take 65535) ++
      storedBlocks (data.drop 65535)
termination_by data.length
decreasing_by
  simp only [List.length_drop]
  omega

/-- Parse DEFLATE stored blocks, returning the payload and the unconsumed
tail. Each block's flag byte, `NLEN` complement and length bound are
checked. -/
def parseStoredBlocks : List Byte → Option (List Byte × List Byte)
  | bfinal :: l1 :: l2 :: n1 :: n2 :: rest =>
      let len := l1.val + 256 * l2.val
      if (bfinal.val = 0 ∨ bfinal.val = 1) ∧
          n1.val = 255 - l1.val ∧ n2.val = 255 - l2.val ∧ len ≤ rest.length then
        if bfinal.val = 1 then some (rest.take len, rest.drop len)
        else
          match parseStoredBlocks (rest.drop len) with
          | some (more, tail) => some (rest.take len ++ more, tail)
          | none => none
      else none
  | _ => none
termination_by bs => bs.length
decreasing_by
  simp only [List.length_cons, List.length_drop]
  omega

/-- The 10-byte gzip member header `gzipCompress` writes: magic `1f 8b`,
compression method 8 (DEFLATE), no flags, zero MTIME, zero XFL, OS byte
255 (unknown). -/
def GZIP_HEADER : List Byte :=
  [loByte 0x1f, loByte 0x8b, loByte 8, loByte 0, loByte 0, loByte 0, loByte 0,
   loByte 0, loByte 0, loByte 255]

/-- Modelled from the spec: `gzip.compress` — a gzip member holding the
payload in stored blocks, trailed by its CRC-32 and its length modulo
`2^32`. -/
def gzipCompress (data : List Byte) : List Byte :=
  GZIP_HEADER ++ storedBlocks data ++ le32Bytes (crc32 data) ++
    le32Bytes (data.length % 2 ^ 32)

/-- Modelled from the spec: `gzip.decompress` for such a member — check the
magic, method and flag bytes, parse the stored blocks, and verify both
trailer fields against the recovered payload. -/
def gzipDecompress (bs : List Byte) : Option (List Byte) :=
  match bs with
  | m1 :: m2 :: cm :: flg :: _t1 :: _t2 :: _t3 :: _t4 :: _xfl :: _os :: rest =>
      if m1.val = 0x1f ∧ m2.val = 0x8b ∧ cm.val = 8 ∧ flg.val = 0 then
        match parseStoredBlocks rest with
        | some (payload, tail) =>
            match tail with
            | [c1, c2, c3, c4, s1, s2, s3, s4] =>
                if le32Value c1 c2 c3 c4 = crc32 payload ∧
                    le32Value s1 s2 s3 s4 = payload.length % 2 ^ 32 then
                  some payload
                else none
            | _ => none
        | none => none
      else none
  | _ => none

/-- The UTF-8 encoding of a Unicode scalar value, by its range: one to four
bytes. -/
def utf8EncodeChar (c : Nat) : List Byte :=
  if c < 0x80 then [loByte c]
  else if c < 0x800 then [loByte (0xC0 + c / 64), loByte (0x80 + c % 64)]
  else if c < 0x10000 then
    [loByte (0xE0 + c / 4096), loByte (0x80 + c / 64 % 64), loByte (0x80 + c % 64)]
  else
    [loByte (0xF0 + c / 262144), loByte (0x80 + c / 4096 % 64),
     loByte (0x80 + c / 64 % 64), loByte (0x80 + c % 64)]

/-- The UTF-8 encoding of a string: `content.encode('utf-8')`. -/
def utf8Encode (s : String) : List Byte :=
  s.data.flatMap fun ch => utf8EncodeChar ch.toNat

/-- `compress_content` from the generator script: gzip-compress the UTF-8
encoding of the text. -/
def compress_content (s : String) : List Byte :=
  gzipCompress (utf8Encode s)

/-- Whether a character is a lowercase hexadecimal digit. -/
def isLowerHexDigit (c : Char) : Bool :=
  ('0' ≤ c && c ≤ '9') || ('a' ≤ c && c ≤ 'f')

/-- The value of a lowercase hexadecimal digit character (`16` marks a
non-digit). -/
def hexCharValue (c : Char) : Nat :=
  if '0' ≤ c ∧ c ≤ '9' then c.toNat - '0'.toNat
  else if 'a' ≤ c ∧ c ≤ 'f' then c.toNat - 'a'.toNat + 10
  else 16

/-- The numeric value of a `0x`-prefixed hexadecimal literal's text. -/
def hexLiteralValue : List Char → Nat
  | '0' :: 'x' :: ds => ds.foldl (fun a c => 16 * a + hexCharValue c) 0
  | _ => 0

/-! ## Helper lemmas on the validator primitives -/

/-- A guarded `some` is defined exactly when its guard holds. -/
theorem isSome_ite_some (c : Prop) [Decidable c] (v : α) :
    (if c then some v else none : Option α).isSome = true ↔ c := by
  split <;> simp_all

/-- Binding through a guarded `some` runs the continuation under the
guard. -/
theorem ite_some_bind (c : Prop) [Decidable c] (v : α) (f : α → Option β) :
    (if c then some v else none : Option α).bind f = if c then f v else none := by
  split <;> rfl

/-- Acceptance of the temperature-control schema, characterized field by
field after default substitution. -/
theorem thermal_config_validate_isSome_iff (raw : ThermalRawConfig) :
    (thermal_config_validate raw).isSome = true ↔
      (10 ≤ raw.target_temperature.getD 45 ∧ raw.target_temperature.getD 45 ≤ 80) ∧
        0 < raw.kp.getD 2 ∧ 0 < raw.ki.getD (1 / 10) ∧ 0 < raw.kd.getD (1 / 2) ∧
        (0 ≤ raw.min_fan_pwm.getD 0 ∧ raw.min_fan_pwm.getD 0 ≤ 100) ∧
        (0 ≤ raw.max_fan_pwm.getD 100 ∧ raw.max_fan_pwm.getD 100 ≤ 100) ∧
        (30 ≤ raw.emergency_temperature.getD 60 ∧
          raw.emergency_temperature.getD 60 ≤ 100) ∧
        (30 ≤ raw.recovery_temperature.getD 55 ∧
          raw.recovery_temperature.getD 55 ≤ 100) := by
  simp only [thermal_config_validate, float_range, positive_float, percentage, bind,
    Option.bind_eq_bind, ite_some_bind]
  split_ifs <;> simp_all

/-- The scheduler schema, collapsed to its two effective checks: the channel
range and the update-interval parse. -/
theorem scheduler_config_validate_eq (raw : SchedulerRawConfig) :
    scheduler_config_validate raw =
      if 1 ≤ raw.channels.getD 8 ∧ raw.channels.getD 8 ≤ 16 then
        (parse_duration_s (raw.update_interval.getD DEFAULT_UPDATE_INTERVAL)).bind
          fun ui => some ⟨raw.channels.getD 8, ui, raw.timezone.getD "UTC"⟩
      else none := by
  simp only [scheduler_config_validate, int_range, bind, Option.bind_eq_bind,
    ite_some_bind]

/-- The default `"30s"` update interval parses to 30000 milliseconds. -/
theorem parse_duration_default : parse_duration_s DEFAULT_UPDATE_INTERVAL = some 30000 := by
  decide

/-! ## The claims -/

/-- C4: Scheduler configuration validation accepts a `channels` value exactly
when it is an integer in `[1, 16]`; any channel count outside that range is
rejected at configuration time. -/
theorem scheduler_channels_accepted_iff (c : Int) :
    (scheduler_config_validate
        { schedulerRawEmpty with channels := some c }).isSome = true ↔
      1 ≤ c ∧ c ≤ 16 := by
  rw [scheduler_config_validate_eq]
  simp [schedulerRawEmpty, parse_duration_default, isSome_ite_some]

/-- C6: A validated scheduler configuration whose `update_interval` key was
omitted resolves it to the default 30 seconds (30000 ms). -/
theorem update_interval_default_30s (raw : SchedulerRawConfig)
    (h : raw.update_interval = none) (cfg : SchedulerConfig)
    (hv : scheduler_config_validate raw = some cfg) :
    cfg.update_interval_ms = 30000 := by
  rw [scheduler_config_validate_eq, h] at hv
  simp only [Option.getD_none, parse_duration_default, Option.bind_some] at hv
  split_ifs at hv
  cases hv
  rfl

/-- Witness for C6: the all-defaults configuration validates and carries a
30000 ms update interval. -/
theorem update_interval_default_30s_witness :
    schedulerRawEmpty.update_interval = none ∧
      scheduler_config_validate schedulerRawEmpty = some ⟨8, 30000, "UTC"⟩ ∧
      (⟨8, 30000, "UTC"⟩ : SchedulerConfig).update_interval_ms = 30000 :=
  ⟨rfl, by decide,
    update_interval_default_30s schedulerRawEmpty rfl ⟨8, 30000, "UTC"⟩ (by decide)⟩

/-- C10: A validated scheduler configuration whose `channels` key was omitted
resolves the channel count to the default 8. -/
theorem channels_default_eight (raw : SchedulerRawConfig)
    (h : raw.channels = none) (cfg : SchedulerConfig)
    (hv : scheduler_config_validate raw = some cfg) :
    cfg.channels = 8 := by
  rw [scheduler_config_validate_eq, h] at hv
  simp only [Option.getD_none] at hv
  split_ifs at hv
  cases hch : parse_duration_s (raw.update_interval.getD DEFAULT_UPDATE_INTERVAL) <;>
    rw [hch] at hv
  · cases hv
  · cases hv
    rfl

/-- Counterexample to C2: the `SET_SCHEDULE_POINT_SCHEMA` accepts an input
whose `pwm_values` and `current_values` have different lengths (1 and 2),
which the claim says must be rejected for every configured channel count —
in particular for the default count 8. -/
theorem set_schedule_point_lengths_uncoupled :
    set_schedule_point_validate ⟨0, [50], [1, 1]⟩ = true ∧
      ¬ set_schedule_point_spec_accepts 8 ⟨0, [50], [1, 1]⟩ := by
  constructor
  · decide
  · decide

/-- C2 amended: `set_schedule_point` accepts its input exactly when the
timepoint is an integer in `[0, 1439]`, every pwm value is in `[0, 100]`
percent, every current value is in `[0, 5]` A, and each list's own length is
in `[1, 16]` — the two lengths are validated independently of each other and
of the configured channel count. -/
theorem set_schedule_point_validate_iff (x : SetSchedulePointInput) :
    set_schedule_point_validate x = true ↔
      (0 ≤ x.timepoint ∧ x.timepoint ≤ 1439) ∧
        (∀ v ∈ x.pwm_values, 0 ≤ v ∧ v ≤ 100) ∧
        (1 ≤ x.pwm_values.length ∧ x.pwm_values.length ≤ 16) ∧
        (∀ v ∈ x.current_values, 0 ≤ v ∧ v ≤ 5) ∧
        (1 ≤ x.current_values.length ∧ x.current_values.length ≤ 16) := by
  simp [set_schedule_point_validate, int_range, percentage, float_range,
    length_range, isSome_ite_some, List.all_eq_true, and_assoc]

/-- Witness for C10: the all-defaults configuration validates and carries 8
channels. -/
theorem channels_default_eight_witness :
    schedulerRawEmpty.channels = none ∧
      scheduler_config_validate schedulerRawEmpty = some ⟨8, 30000, "UTC"⟩ ∧
      (⟨8, 30000, "UTC"⟩ : SchedulerConfig).channels = 8 :=
  ⟨rfl, by decide,
    channels_default_eight schedulerRawEmpty rfl ⟨8, 30000, "UTC"⟩ (by decide)⟩

/-- Counterexample to C3: a configuration whose `recovery_temperature` (70)
is not strictly below its `emergency_temperature` (60) passes validation —
the schema checks each range separately and never compares the two. -/
theorem recovery_not_below_emergency_accepted :
    ((thermal_config_validate
          { thermalRawEmpty with emergency_temperature := some 60,
                                 recovery_temperature := some 70 }).map
        fun c => (c.emergency_temperature, c.recovery_temperature)) =
      some (60, 70) ∧ ¬ ((70 : ℚ) < 60) := by
  constructor
  · simp only [thermal_config_validate, thermalRawEmpty, Option.getD_none,
      Option.getD_some, float_range, positive_float, percentage, bind,
      Option.bind_eq_bind, ite_some_bind]
    norm_num
  · norm_num

/-- C3 amended: configuration validation requires `emergency_temperature ∈
[30, 100]` and `recovery_temperature ∈ [30, 100]` but imposes no relation
between the two values: every pair inside those ranges is accepted, whether
or not the recovery value is below the emergency value. -/
theorem thermal_temperatures_validated_independently (e r : ℚ)
    (he1 : 30 ≤ e) (he2 : e ≤ 100) (hr1 : 30 ≤ r) (hr2 : r ≤ 100) :
    (thermal_config_validate
        { thermalRawEmpty with emergency_temperature := some e,
                               recovery_temperature := some r }).isSome = true := by
  rw [thermal_config_validate_isSome_iff]
  simp only [thermalRawEmpty, Option.getD_none, Option.getD_some]
  exact ⟨by norm_num, by norm_num, by norm_num, by norm_num, by norm_num,
    by norm_num, ⟨he1, he2⟩, ⟨hr1, hr2⟩⟩

/-- Witness for the amended C3, at a pair with the recovery value above the
emergency value. -/
theorem thermal_temperatures_validated_independently_witness :
    ((30 : ℚ) ≤ 60 ∧ (60 : ℚ) ≤ 100 ∧ (30 : ℚ) ≤ 70 ∧ (70 : ℚ) ≤ 100) ∧
      (thermal_config_validate
          { thermalRawEmpty with emergency_temperature := some 60,
                                 recovery_temperature := some 70 }).isSome = true :=
  ⟨by norm_num,
    thermal_temperatures_validated_independently 60 70 (by norm_num) (by norm_num)
      (by norm_num) (by norm_num)⟩

/-- C5: the PID gains are validated to be strictly positive, and when
omitted they default to `kp = 2.0`, `ki = 0.1`, `kd = 0.5`. -/
theorem pid_gains_positive_and_defaults :
    ((thermal_config_validate thermalRawEmpty).map fun c => (c.kp, c.ki, c.kd)) =
        some (2, 1 / 10, 1 / 2) ∧
      (∀ k : ℚ,
        (thermal_config_validate
            { thermalRawEmpty with kp := some k }).isSome = true ↔ 0 < k) ∧
      (∀ k : ℚ,
        (thermal_config_validate
            { thermalRawEmpty with ki := some k }).isSome = true ↔ 0 < k) ∧
      (∀ k : ℚ,
        (thermal_config_validate
            { thermalRawEmpty with kd := some k }).isSome = true ↔ 0 < k) := by
  refine ⟨?_, fun k => ?_, fun k => ?_, fun k => ?_⟩
  · simp only [thermal_config_validate, thermalRawEmpty, Option.getD_none,
      float_range, positive_float, percentage, bind, Option.bind_eq_bind,
      ite_some_bind]
    norm_num
  all_goals
    rw [thermal_config_validate_isSome_iff]
    simp only [thermalRawEmpty, Option.getD_none, Option.getD_some]
    norm_num

/-- C7: configuration validation accepts `min_fan_pwm` and `max_fan_pwm`
exactly when each is a percentage in `[0, 100]`. -/
theorem fan_pwm_percentage_iff (m M : ℚ) :
    (thermal_config_validate
        { thermalRawEmpty with min_fan_pwm := some m,
                               max_fan_pwm := some M }).isSome = true ↔
      (0 ≤ m ∧ m ≤ 100) ∧ (0 ≤ M ∧ M ≤ 100) := by
  rw [thermal_config_validate_isSome_iff]
  simp [thermalRawEmpty]
  norm_num

/-- C1: on every control tick whose resulting state is Emergency — whatever
the configuration, sensor readings, pending `set_enabled` action (a
`set_enabled(true)` included) and previous state — the fan output is forced
to `max_fan_pwm` and the Scheduler Controller's `enabled` flag is forced to
`false`. -/
theorem emergency_tick_forces_outputs (cfg : ThermalConfig) (now : Nat)
    (readings : List (Option ℚ)) (dt : ℚ) (act : Option Bool) (s : ControlState)
    (h : (control_tick cfg now readings dt act s).mode.isEmergency = true) :
    (control_tick cfg now readings dt act s).fan_output = cfg.max_fan_pwm ∧
      (control_tick cfg now readings dt act s).scheduler_enabled = false := by
  simp only [control_tick] at h ⊢
  split_ifs at h ⊢ with hEm
  · exact ⟨rfl, rfl⟩
  · exact absurd h hEm

/-- A configuration for the C1 witness run: emergency at 60 °C, fan range
`[20, 100]`. -/
def witnessThermalConfig : ThermalConfig :=
  ⟨45, 2, 1 / 10, 1 / 2, 20, 100, 60, 55, 5000⟩

/-- A pre-tick state for the C1 witness run: Normal, lighting enabled. -/
def witnessControlState : ControlState :=
  ⟨.normal, ⟨0, 0, 0⟩, 20, true⟩

/-- Witness for C1: a tick reading 70 °C against a 60 °C emergency threshold,
with a `set_enabled(true)` action pending in the same tick window, ends in
Emergency with the fan at `max_fan_pwm` and the scheduler disabled. -/
theorem emergency_tick_forces_outputs_witness :
    (control_tick witnessThermalConfig 0 [some 70] 1 (some true)
          witnessControlState).mode.isEmergency = true ∧
      ((control_tick witnessThermalConfig 0 [some 70] 1 (some true)
            witnessControlState).fan_output = witnessThermalConfig.max_fan_pwm ∧
        (control_tick witnessThermalConfig 0 [some 70] 1 (some true)
            witnessControlState).scheduler_enabled = false) :=
  ⟨by
    simp only [control_tick, witnessThermalConfig, witnessControlState,
      aggregate_temperature, thermal_transition, List.filterMap, id]
    norm_num [ThermalMode.isEmergency],
    emergency_tick_forces_outputs witnessThermalConfig 0 [some 70] 1 (some true)
      witnessControlState
      (by
        simp only [control_tick, witnessThermalConfig, witnessControlState,
          aggregate_temperature, thermal_transition, List.filterMap, id]
        norm_num [ThermalMode.isEmergency])⟩

/-! ## Token extraction lemmas for the generated C array -/

/-- Skipping one separator character leaves the token split unchanged. -/
theorem splitTokens_sep_cons (c : Char) (l : List Char) (h : isSepChar c = true) :
    splitTokens (c :: l) = splitTokens l := by
  rw [splitTokens]
  simp [h]

/-- Skipping a run of separator characters leaves the token split
unchanged. -/
theorem splitTokens_sep_append (s l : List Char)
    (h : ∀ c ∈ s, isSepChar c = true) :
    splitTokens (s ++ l) = splitTokens l := by
  induction s with
  | nil => rfl
  | cons c s ih =>
      rw [List.cons_append, splitTokens_sep_cons c _ (h c (List.mem_cons_self c s))]
      exact ih fun d hd => h d (List.mem_cons_of_mem _ hd)

/-- `takeWhile`/`dropWhile` on a satisfying run followed by a failing (or
empty) remainder split exactly at the boundary. -/
theorem takeWhile_dropWhile_append (p : Char → Bool) (t l : List Char)
    (ht : ∀ c ∈ t, p c = true)
    (hl : ∀ c, l.head? = some c → p c = false) :
    (t ++ l).takeWhile p = t ∧ (t ++ l).dropWhile p = l := by
  induction t with
  | nil =>
      simp only [List.nil_append]
      cases l with
      | nil => simp
      | cons c l' =>
          have hc := hl c rfl
          simp [List.takeWhile_cons, List.dropWhile_cons, hc]
  | cons a t ih =>
      have ha := ht a (List.mem_cons_self a t)
      have ih' := ih fun c hc => ht c (List.mem_cons_of_mem _ hc)
      simp [List.takeWhile_cons, List.dropWhile_cons, ha, ih'.1, ih'.2]

/-- A nonempty run of non-separator characters, followed by a remainder that
is empty or starts with a separator, contributes exactly itself as the next
token. -/
theorem splitTokens_token_append (t l : List Char) (ht : t ≠ [])
    (hsep : ∀ c ∈ t, isSepChar c = false)
    (hl : ∀ c, l.head? = some c → isSepChar c = true) :
    splitTokens (t ++ l) = t :: splitTokens l := by
  cases t with
  | nil => exact absurd rfl ht
  | cons a t' =>
      have ha := hsep a (List.mem_cons_self a t')
      have h2 := takeWhile_dropWhile_append (fun d => !isSepChar d) t' l
        (fun c hc => by simp [hsep c (List.mem_cons_of_mem _ hc)])
        (fun c hc => by simp [hl c hc])
      rw [List.cons_append, splitTokens, if_neg (by simp [ha]), h2.1, h2.2]

/-- Every character a separator run can hold is a separator character. -/
theorem sepBefore_all_sep (i : Nat) : ∀ c ∈ sepBefore i, isSepChar c = true := by
  intro c hc
  unfold sepBefore at hc
  split_ifs at hc <;> first
    | exact absurd hc (List.not_mem_nil c)
    | (fin_cases hc <;> decide)

/-- A hex literal's text is never empty. -/
theorem hexLiteral_ne_nil (b : Byte) : hexLiteral b ≠ [] := by
  simp [hexLiteral]

/-- The sixteen digit characters and their values, as `{:02x}` renders
them. -/
theorem hexDigitChar_facts : ∀ n : Fin 16,
    isSepChar (hexDigitChar n.val) = false ∧
      isLowerHexDigit (hexDigitChar n.val) = true ∧
      hexCharValue (hexDigitChar n.val) = n.val := by
  decide

/-- No character of a hex literal is a separator character. -/
theorem hexLiteral_not_sep (b : Byte) : ∀ c ∈ hexLiteral b, isSepChar c = false := by
  have h1 := (hexDigitChar_facts ⟨b.val / 16, by omega⟩).1
  have h2 := (hexDigitChar_facts ⟨b.val % 16, by omega⟩).1
  intro c hc
  simp only [hexLiteral, List.mem_cons, List.not_mem_nil, or_false] at hc
  rcases hc with rfl | rfl | rfl | rfl
  · decide
  · decide
  · exact h1
  · exact h2

/-- The generated loop body, from any starting index, splits into exactly the
hex literals of the remaining bytes once the closing `'\n}'` is appended. -/
theorem splitTokens_hex_bytes_from (data : List Byte) : ∀ i : Nat,
    splitTokens (hex_bytes_from i data ++ ['\n', '}']) = data.map hexLiteral := by
  induction data with
  | nil =>
      intro i
      show splitTokens ['\n', '}'] = []
      rw [splitTokens_sep_cons _ _ (by decide), splitTokens_sep_cons _ _ (by decide),
        splitTokens]
  | cons b rest ih =>
      intro i
      show splitTokens ((sepBefore i ++ hexLiteral b ++ hex_bytes_from (i + 1) rest) ++
          ['\n', '}']) = _
      rw [List.append_assoc, List.append_assoc,
        splitTokens_sep_append _ _ (sepBefore_all_sep i),
        splitTokens_token_append _ _ (hexLiteral_ne_nil b) (hexLiteral_not_sep b) ?_,
        ih (i + 1), List.map_cons]
      intro c hc
      cases rest with
      | nil =>
          simp only [hex_bytes_from, List.nil_append, List.head?] at hc
          cases hc
          decide
      | cons b' rest' =>
          rw [show hex_bytes_from (i + 1) (b' :: rest') =
              sepBefore (i + 1) ++ hexLiteral b' ++ hex_bytes_from (i + 2) rest' from rfl] at hc
          rw [show sepBefore (i + 1) = if (i + 1) % 16 = 0 then
              [',', ' ', '\n', ' ', ' ', ' ', ' '] else [',', ' '] from
            by rw [sepBefore, if_neg (Nat.succ_ne_zero i)]] at hc
          split_ifs at hc <;> (cases hc; decide)

/-- C9: for every byte sequence, `bytes_to_c_array` returns a brace-enclosed
C array initializer whose token list is exactly one two-digit lowercase
hexadecimal literal per input byte, in input order, the literal at each
position denoting that position's byte value. -/
theorem bytes_to_c_array_spec (data : List Byte) :
    splitTokens (bytes_to_c_array data) = data.map hexLiteral ∧
      (bytes_to_c_array data).head? = some '{' ∧
      (bytes_to_c_array data).getLast? = some '}' ∧
      ∀ b : Byte, (hexLiteral b).length = 4 ∧
        (hexLiteral b).take 2 = ['0', 'x'] ∧
        ((hexLiteral b).drop 2).all isLowerHexDigit = true ∧
        hexLiteralValue (hexLiteral b) = b.val := by
  refine ⟨?_, rfl, ?_, fun b => ⟨rfl, rfl, ?_, ?_⟩⟩
  · show splitTokens (['{', '\n', ' ', ' ', ' ', ' '] ++ hex_bytes_from 0 data ++
        ['\n', '}']) = _
    rw [List.append_assoc, splitTokens_sep_append _ _ (by intro c hc; fin_cases hc <;> decide),
      splitTokens_hex_bytes_from data 0]
  · show (['{', '\n', ' ', ' ', ' ', ' '] ++ hex_bytes_from 0 data ++
        ['\n', '}']).getLast? = some '}'
    rw [List.getLast?_append_of_ne_nil _ (by simp)]
    rfl
  · have h1 := (hexDigitChar_facts ⟨b.val / 16, by omega⟩).2.1
    have h2 := (hexDigitChar_facts ⟨b.val % 16, by omega⟩).2.1
    simp [hexLiteral, List.all_cons, h1, h2]
  · have h1 := (hexDigitChar_facts ⟨b.val / 16, by omega⟩).2.2
    have h2 := (hexDigitChar_facts ⟨b.val % 16, by omega⟩).2.2
    simp only [hexLiteral, hexLiteralValue, List.foldl_cons, List.foldl_nil] at h1 h2 ⊢
    rw [h1, h2]
    omega

/-! ## Round-trip lemmas for the gzip model -/

/-- One CRC-32 bit step keeps the accumulator inside 32 bits. -/
theorem crc32_step_lt {c : Nat} (h : c < 2 ^ 32) : crc32_step c < 2 ^ 32 := by
  unfold crc32_step
  split
  · exact Nat.xor_lt_two_pow (by omega) (by norm_num)
  · omega

/-- Iterating the CRC-32 bit step keeps the accumulator inside 32 bits. -/
theorem crc32_iterate_lt (n : Nat) {c : Nat} (h : c < 2 ^ 32) :
    crc32_step^[n] c < 2 ^ 32 := by
  induction n generalizing c with
  | zero => simpa
  | succ n ih => rw [Function.iterate_succ_apply]; exact ih (crc32_step_lt h)

/-- Folding one byte into the CRC-32 keeps the accumulator inside 32 bits. -/
theorem crc32_byte_lt {c : Nat} (b : Byte) (h : c < 2 ^ 32) :
    crc32_byte c b < 2 ^ 32 :=
  crc32_iterate_lt 8 (Nat.xor_lt_two_pow h (by have := b.isLt; omega))

/-- The CRC-32 fold keeps the accumulator inside 32 bits. -/
theorem crc32_foldl_lt (data : List Byte) {c : Nat} (h : c < 2 ^ 32) :
    data.foldl crc32_byte c < 2 ^ 32 := by
  induction data generalizing c with
  | nil => simpa
  | cons b data ih => exact ih (crc32_byte_lt b h)

/-- A CRC-32 checksum is a 32-bit value. -/
theorem crc32_lt (data : List Byte) : crc32 data < 2 ^ 32 :=
  Nat.xor_lt_two_pow (crc32_foldl_lt data (by norm_num)) (by norm_num)

/-- Reading back the four little-endian bytes of a 32-bit value restores
it. -/
theorem le32Value_loBytes {n : Nat} (h : n < 2 ^ 32) :
    le32Value (loByte n) (loByte (n / 256)) (loByte (n / 2 ^ 16))
      (loByte (n / 2 ^ 24)) = n := by
  simp only [le32Value, loByte]
  omega

/-- Parsing one final stored block (payload at most 65535 bytes) recovers the
payload and the trailing bytes. -/
theorem parseStoredBlocks_single (data tail : List Byte)
    (h : data.length ≤ 65535) :
    parseStoredBlocks (storedBlocks data ++ tail) = some (data, tail) := by
  rw [storedBlocks, dif_pos h]
  simp only [List.cons_append, parseStoredBlocks, loByte]
  rw [if_pos ?hc, if_pos trivial]
  case hc =>
    refine ⟨Or.inr trivial, by omega, by omega, ?_⟩
    simp only [List.length_append]; omega
  rw [show data.length % 256 + 256 * (data.length / 256 % 256) = data.length from
    by omega, List.take_left, List.drop_left]

/-- Parsing the stored-block serialization of any payload recovers the
payload and the trailing bytes. -/
theorem parseStoredBlocks_storedBlocks (data tail : List Byte) :
    parseStoredBlocks (storedBlocks data ++ tail) = some (data, tail) := by
  suffices H : ∀ n data tail, List.length data ≤ n →
      parseStoredBlocks (storedBlocks data ++ tail) = some (data, tail) from
    H data.length data tail (Nat.le_refl _)
  intro n
  induction n with
  | zero =>
      intro data tail h
      exact parseStoredBlocks_single data tail (by omega)
  | succ n ih =>
      intro data tail h
      by_cases hlen : data.length ≤ 65535
      · exact parseStoredBlocks_single data tail hlen
      · rw [storedBlocks, dif_neg hlen]
        have htake : (data.take 65535).length = 65535 := by
          simp only [List.length_take]
          omega
        rw [List.append_assoc]
        simp only [List.cons_append, parseStoredBlocks, loByte]
        rw [show (255 : Nat) % 256 + 256 * (255 % 256) = (data.take 65535).length from
          by rw [htake]]
        rw [if_pos ?hc, if_neg (by omega)]
        case hc =>
          refine ⟨Or.inl trivial, trivial, trivial, ?_⟩
          simp only [List.length_append]
          omega
        rw [List.drop_left,
          ih (data.drop 65535) tail (by simp only [List.length_drop]; omega)]
        rw [List.take_left]
        show some (List.take 65535 data ++ List.drop 65535 data, tail) =
          some (data, tail)
        rw [List.take_append_drop]

/-- Round trip of the gzip model: decompressing a compressed payload yields
the payload. -/
theorem gzip_roundtrip (data : List Byte) :
    gzipDecompress (gzipCompress data) = some data := by
  unfold gzipCompress GZIP_HEADER
  simp only [List.cons_append, List.nil_append, List.append_assoc]
  simp only [gzipDecompress]
  rw [if_pos (by refine ⟨rfl, rfl, rfl, rfl⟩)]
  rw [parseStoredBlocks_storedBlocks]
  simp only [le32Bytes, List.cons_append, List.nil_append]
  rw [if_pos ?ht]
  case ht =>
    exact ⟨le32Value_loBytes (crc32_lt data),
      le32Value_loBytes (Nat.mod_lt _ (by norm_num))⟩

/-- C8: for every text string, `compress_content` produces bytes whose gzip
decompression is exactly the UTF-8 encoding of the string — compressing the
web assets round-trips their content. -/
theorem compress_content_roundtrip (s : String) :
    gzipDecompress (compress_content s) = some (utf8Encode s) :=
  gzip_roundtrip (utf8Encode s)

end LedBrick
